import Mathlib

/-!
Verification development for the PaperCompass paper-search application
(`tools/app.py`, `tools/data_processing.py`, `tools/key_fields_loader.py`).

The Python code is shallowly embedded: JSON values become the inductive
`JVal`, paper records become association lists from field names to `JVal`,
and each Python function of interest becomes a Lean function of the same
name (snake_case preserved).  The module `extract` (providing
`filter_data`, `count_results` and the search-mode constants) is imported
by `app.py` but is not part of the repository snapshot; those definitions
are modelled from the specification and are marked as such in their doc
comments.
-/

/-- A JSON value, as produced by `json.load`.  JSON numbers are modelled
as integers (no claim touches floating-point); objects and arrays are
modelled structurally. -/
inductive JVal where
  | null : JVal
  | bool (b : Bool) : JVal
  | num (n : Int) : JVal
  | str (s : String) : JVal
  | list (xs : List JVal) : JVal
  | obj (fs : List (String × JVal)) : JVal

namespace JVal

mutual

/-- Structural equality on JSON values, modelling Python `==` on values
loaded by `json.load` (scalar cross-type coercions such as `True == 1`
do not arise in the comparisons the application performs).  The two
container positions recurse through companion functions on lists. -/
def jeq (u v : JVal) : Bool :=
  match u, v with
  | .obj fs, .obj gs => jeqEntries fs gs
  | .list xs, .list ys => jeqElems xs ys
  | .str a, .str b => a == b
  | .num a, .num b => a == b
  | .bool a, .bool b => a == b
  | .null, .null => true
  | _, _ => false

def jeqElems (us vs : List JVal) : Bool :=
  match us, vs with
  | u :: us, v :: vs => jeq u v && jeqElems us vs
  | [], [] => true
  | _, _ => false

def jeqEntries (us vs : List (String × JVal)) : Bool :=
  match us, vs with
  | u :: us, v :: vs => u.1 == v.1 && jeq u.2 v.2 && jeqEntries us vs
  | [], [] => true
  | _, _ => false

end

/-- Is this value a Python `bool` (`isinstance(v, bool)`)? -/
def isBool : JVal → Bool
  | .bool _ => true
  | _ => false

end JVal

/-- Membership test `x in xs` on a Python list/set of JSON values. -/
def memJ (x : JVal) (xs : List JVal) : Bool :=
  xs.any (fun y => JVal.jeq x y)

/-- First value stored under key `k` in a Python dict represented as an
association list (`d[k]` / `k in d`). -/
def lookupKey (k : String) : List (String × JVal) → Option JVal
  | [] => none
  | (k', v) :: fs => if k' = k then some v else lookupKey k fs

/-- Python `str()` on JSON-loaded values: `str(True) = "True"`,
`str(None) = "None"`, strings are returned as-is, integers in decimal.
Containers are rendered in a simplified bracketed form (the application
never feeds a container through `str()` in a compared position). -/
def pyStr : JVal → String
  | .null => "None"
  | .bool true => "True"
  | .bool false => "False"
  | .num n => toString n
  | .str s => s
  | .list _ => "[...]"
  | .obj _ => "\x7b...\x7d"

/-- The characters Python `str.split()` / `str.strip()` treat as
whitespace. -/
def pyIsSpace (c : Char) : Bool :=
  c = ' ' || c = '\t' || c = '\n' || c = '\r' || c = Char.ofNat 11 || c = Char.ofNat 12

/-- Split a character list at every character satisfying `p`, keeping
empty pieces (the underlying splitter of Python's `str.split`). -/
def splitChars (p : Char → Bool) : List Char → List (List Char)
  | [] => [[]]
  | c :: cs =>
    if p c then [] :: splitChars p cs
    else
      match splitChars p cs with
      | [] => [[c]]
      | t :: ts => (c :: t) :: ts

/-- Python `s.strip()` on the character level. -/
def stripChars (l : List Char) : List Char :=
  ((l.dropWhile pyIsSpace).reverse.dropWhile pyIsSpace).reverse

/-- Python `s.strip()`. -/
def pyStrip (s : String) : String :=
  String.mk (stripChars s.data)

/-- Python `s.lower()` (character-wise ASCII lower-casing, matching
`str.lower` on the ASCII data the application compares). -/
def pyToLower (s : String) : String :=
  String.mk (s.data.map Char.toLower)

/-- Python `s.replace(',', ' ')`. -/
def replaceCommas (s : String) : String :=
  String.mk (s.data.map (fun c => if c = ',' then ' ' else c))

/-- Python `s.split()` — split on whitespace runs, dropping empty
pieces. -/
def pySplit (s : String) : List String :=
  ((splitChars pyIsSpace s.data).map String.mk).filter (fun t => t ≠ "")

/-- Query tokenization from `display_search_results`
(`app.py` line 247): `[k.strip() for k in keyword.replace(',', ' ').split() if k.strip()]`. -/
def pyTokens (keyword : String) : List String :=
  (pySplit (replaceCommas keyword)).filterMap
    (fun k => if pyStrip k = "" then none else some (pyStrip k))

/-- Substring containment `needle in hay` on character lists. -/
def containsSub : List Char → List Char → Bool
  | hay, needle =>
    match hay with
    | [] => needle.isEmpty
    | _ :: t => needle.isPrefixOf hay || containsSub t needle

/-- Case-insensitive substring containment between strings. -/
def strContains (hay needle : String) : Bool :=
  containsSub (pyToLower hay).data (pyToLower needle).data

/-- A paper record: a mapping from field name to JSON value
(`Dict[str, Any]` in the source). -/
def Record : Type := List (String × JVal)

/-- Python `paper.get(field)`: the stored value, or `None` when the key
is absent (JSON `null` and dict-miss coincide in Python as `None`). -/
def rGet (r : Record) (k : String) : JVal :=
  (lookupKey k r).getD JVal.null

/-- `data_processing.load_json_data`, applied to the parsed content of
the file: `none` models a missing file or a `json.load` failure (both
return `[]`); a top-level list is returned as-is; a top-level dict is
flattened through its `categories` / `data` / `records` keys; any other
shape yields `[]`.  A `categories` value that is not a dict makes the
comprehension raise, which the enclosing handler turns into `[]`. -/
def load_json_data : Option JVal → List JVal
  | none => []
  | some (.list xs) => xs
  | some (.obj kvs) =>
    match lookupKey "categories" kvs with
    | some (.obj cats) =>
      cats.map (fun kv => JVal.obj [("category", JVal.str kv.1), ("papers", kv.2)])
    | some _ => []
    | none =>
      match lookupKey "data" kvs with
      | some (.list xs) => xs
      | _ =>
        match lookupKey "records" kvs with
        | some (.list xs) => xs
        | _ => []
  | some _ => []

/-- Python iteration `for val in v` over a JSON value: lists yield their
elements, strings their characters, dicts their keys; scalars raise
`TypeError` (modelled as `none`). -/
def pyIter : JVal → Option (List JVal)
  | .list xs => some xs
  | .str s => some (s.data.map (fun c => JVal.str (String.mk [c])))
  | .obj fs => some (fs.map (fun kv => JVal.str kv.1))
  | _ => none

/-- Remove every entry stored under key `k` (Python `del d[k]`; a dict
holds the key at most once). -/
def removeKey (k : String) (fs : List (String × JVal)) : List (String × JVal) :=
  fs.filter (fun kv => kv.1 ≠ k)

/-- Replace the value stored under key `k` (Python `d[k] = v`). -/
def setKey (k : String) (v : JVal) (fs : List (String × JVal)) : List (String × JVal) :=
  fs.map (fun kv => if kv.1 = k then (kv.1, v) else kv)

/-- `key_fields_loader.load_conference_key_fields`, applied to the parsed
content of the catalog file (`none` models a missing/unreadable file or a
parse failure, both of which return `{}`).  The stored `award` list is
stringified entrywise (`[str(val) for val in key_fields['award']]`; a
non-iterable `award` value raises and the handler returns `{}`), and the
`categories` entry is deleted. -/
def load_conference_key_fields : Option (List (String × JVal)) → List (String × JVal)
  | none => []
  | some kf =>
    match lookupKey "award" kf with
    | none => removeKey "categories" kf
    | some v =>
      match pyIter v with
      | none => []
      | some elems =>
        removeKey "categories"
          (setKey "award" (JVal.list (elems.map (fun e => JVal.str (pyStr e)))) kf)

/-- A per-conference category catalog: category name → list of paper ids
(`key_fields_loader.load_conference_categories` returns the `categories`
mapping of the catalog file, `{}` when absent or unreadable). -/
def Catalog : Type := List (String × List JVal)

/-- Lookup of a category's id list in a catalog
(`cat_name in data` / `data[cat_name]`). -/
def catalogLookup (k : String) : Catalog → Option (List JVal)
  | [] => none
  | (k', v) :: fs => if k' = k then some v else catalogLookup k fs

/-- The two keyword search modes (`SEARCH_MODE_OR` / `SEARCH_MODE_AND`
from the missing `extract` module). -/
inductive SearchMode where
  | orMode : SearchMode
  | andMode : SearchMode
deriving DecidableEq

/-- Modelled from the spec: the per-record matching rule of §4.1 of the
missing `extract` module — for each requested field, stringify the
field's value (if present) and test case-insensitive substring
containment of the token. -/
def fieldTokenMatch (r : Record) (f : String) (t : String) : Bool :=
  match lookupKey f r with
  | some v => strContains (pyStr v) t
  | none => false

/-- Modelled from the spec: §4.1 of the missing `extract` module — under
`OR` a record matches if any token matches any field; under `AND` every
token must match at least one field (token-level AND, field-level OR). -/
def matchRecord (mode : SearchMode) (tokens : List String) (fields : List String)
    (r : Record) : Bool :=
  match mode with
  | .orMode => tokens.any (fun t => fields.any (fun f => fieldTokenMatch r f t))
  | .andMode => tokens.all (fun t => fields.any (fun f => fieldTokenMatch r f t))

/-- The status-exclusion filter (`app.py` line 297):
`[item for item in data if item.get('status') not in ['Withdraw', 'Reject', 'Desk Reject']]`. -/
def statusExclude (data : List Record) : List Record :=
  data.filter (fun item =>
    ! memJ (rGet item "status")
        [JVal.str "Withdraw", JVal.str "Reject", JVal.str "Desk Reject"])

/-- The status-filtered collection as a function of the
include-rejected flag: all records when the flag is set, otherwise the
status exclusion. -/
def statusFilteredOf (includeRejected : Bool) (data : List Record) : List Record :=
  if includeRejected then data else statusExclude data

/-- Modelled from the spec: `filter_data` of the missing `extract`
module (§4.1) — returns (a) the status-filtered collection and (b) its
keyword-matched subset for the tokenized raw query. -/
def filter_data (data : List Record) (keyword : String) (fields : List String)
    (mode : SearchMode) (includeRejected : Bool) : List Record × List Record :=
  let statusFiltered := statusFilteredOf includeRejected data
  (statusFiltered, statusFiltered.filter (matchRecord mode (pyTokens keyword) fields))

/-- The three counts of §4.4. -/
structure SearchCounts where
  total : Nat
  status_filtered_count : Nat
  matched_count : Nat
deriving DecidableEq

/-- Modelled from the spec: `count_results` of the missing `extract`
module (§4.4) — a simple three-way tally of the original, the
status-filtered, and the final filtered collection. -/
def count_results (data statusFiltered filtered : List Record) : SearchCounts :=
  ⟨data.length, statusFiltered.length, filtered.length⟩

/-- Per-conference allow-lists for one key field:
conference name → selected values. -/
def ConfValuesMap : Type := List (String × List JVal)

/-- `paper_conf in conf_values_map and conf_values_map[paper_conf]`:
the allow-list for the paper's source conference, when the source is a
string key of the map (a non-string source is in no map). -/
def confLookup (conf : JVal) (m : ConfValuesMap) : Option (List JVal) :=
  match conf with
  | .str s =>
    match m.find? (fun kv => kv.1 = s) with
    | some kv => some kv.2
    | none => none
  | _ => none

/-- One key-field check of the loop at `app.py` lines 309-321: with an
active non-empty allow-list for the paper's conference, a boolean
`award` value is compared stringified and lower-cased against the
stringified lower-cased allow-list, every other value by plain
membership. -/
def keyFieldCheck (field : String) (confMap : ConfValuesMap) (paper : Record) : Bool :=
  match confLookup (rGet paper "source") confMap with
  | none => true
  | some vals =>
    if vals.isEmpty then true
    else
      let fv := rGet paper field
      if field = "award" && fv.isBool then
        decide (pyToLower (pyStr fv) ∈ vals.map (fun v => pyToLower (pyStr v)))
      else
        memJ fv vals

/-- The key-field faceting pass of `display_search_results`
(lines 304-325): a paper is kept when every active filter admits it. -/
def keyFieldKeep (filters : List (String × ConfValuesMap)) (paper : Record) : Bool :=
  filters.all (fun fc => keyFieldCheck fc.1 fc.2 paper)

/-- `filtered = filtered_papers_after_key_fields` (lines 304-325). -/
def keyFieldFilter (filters : List (String × ConfValuesMap)) (papers : List Record) :
    List Record :=
  papers.filter (keyFieldKeep filters)

/-- `paper_ids_in_selected_cats` (lines 346-349): the union of the
catalog's id lists over the selected category names (a selected name
absent from the catalog contributes nothing). -/
def unionIds (catalog : Catalog) (cats : List String) : List JVal :=
  cats.foldl (fun acc c => acc ++ ((catalogLookup c catalog).getD [])) []

/-- Source-conference name of a paper, when its `source` field is a
string (dictionary keys of the selection/catalog maps are strings). -/
def srcConf (p : Record) : Option String :=
  match rGet p "source" with
  | .str s => some s
  | _ => none

/-- The category faceting loop of `display_search_results`
(lines 330-354), transcribed branch by branch: papers from a conference
with no selection, an empty selection, or an empty catalog pass
through; otherwise the paper survives exactly when its `id` lies in the
union of the selected categories' id sets. -/
def categoryFilterLoop (sel : List (String × List String)) (catalogOf : String → Catalog) :
    List Record → List Record
  | [] => []
  | p :: ps =>
    let rest := categoryFilterLoop sel catalogOf ps
    match srcConf p with
    | none => p :: rest
    | some conf =>
      match sel.find? (fun kv => kv.1 = conf) with
      | none => p :: rest
      | some kv =>
        if kv.2 = [] then p :: rest
        else if (catalogOf conf).isEmpty then p :: rest
        else if memJ (rGet p "id") (unionIds (catalogOf conf) kv.2) then p :: rest
        else rest

/-- The retention predicate the specification states for category
faceting (§4.3): pass-through without an active selection or catalog,
otherwise membership of the paper's `id` in some selected category's id
set. -/
def categoryKeepSpec (sel : List (String × List String)) (catalogOf : String → Catalog)
    (p : Record) : Bool :=
  match srcConf p with
  | none => true
  | some conf =>
    match sel.find? (fun kv => kv.1 = conf) with
    | none => true
    | some kv =>
      if kv.2 = [] then true
      else if (catalogOf conf).isEmpty then true
      else kv.2.any (fun c => memJ (rGet p "id") ((catalogLookup c (catalogOf conf)).getD []))

/-- `filtered = filtered_papers_after_category` (lines 329-354). -/
def categoryFilter (sel : List (String × List String)) (catalogOf : String → Catalog)
    (papers : List Record) : List Record :=
  categoryFilterLoop sel catalogOf papers

/-- `DATA_SEARCH_MODES[1]` — the "specific conferences" data-source
mode. -/
def conferenceMode : String := "特定会议"

/-- The search parameters `display_search_results` consumes (sidebar
choices plus the session category selection and catalog accessor). -/
structure SearchParams where
  keyword : String
  search_mode : SearchMode
  fields_to_search : List String
  include_rejected : Bool
  key_fields_filters : List (String × ConfValuesMap)
  data_search_mode : String
  conference_categories : List (String × List String)

/-- Outcome of one `display_search_results` call: an early-return
warning/error, or the rendered statistics and final record list. -/
inductive SearchResult where
  | warnSelectSource : SearchResult
  | errNoData : SearchResult
  | warnNeedFields : SearchResult
  | warnNeedKeywords : SearchResult
  | results (total status_filtered_count matched : Nat) (records : List Record) : SearchResult

/-- `display_search_results` (`app.py` lines 221-410) as a pure
function of the session data, the source description, the search
parameters, and the category-catalog accessor.  Mirrors the source
order: source/data guards, tokenization, the two configuration-error
guards, status+keyword filtering, key-field faceting (only in
conference mode, with filters and a non-empty intermediate result),
category faceting (only in conference mode with a selection and a
non-empty intermediate result), then the three displayed counts. -/
def display_search_results (data : List Record) (source : String) (p : SearchParams)
    (catalogOf : String → Catalog) : SearchResult :=
  if source = "" then .warnSelectSource
  else if data.isEmpty then .errNoData
  else
    let keywordsList := pyTokens p.keyword
    if p.fields_to_search = [] ∧ keywordsList ≠ [] then .warnNeedFields
    else if p.fields_to_search ≠ [] ∧ keywordsList = [] then .warnNeedKeywords
    else
      let pair :=
        if keywordsList ≠ [] then
          filter_data data p.keyword p.fields_to_search p.search_mode p.include_rejected
        else
          let sf := statusFilteredOf p.include_rejected data
          (sf, sf)
      let statusFiltered := pair.1
      let filtered := pair.2
      let filtered :=
        if !p.key_fields_filters.isEmpty && !filtered.isEmpty
            && p.data_search_mode == conferenceMode then
          keyFieldFilter p.key_fields_filters filtered
        else filtered
      let filtered :=
        if p.data_search_mode == conferenceMode && !p.conference_categories.isEmpty
            && !filtered.isEmpty then
          categoryFilter p.conference_categories catalogOf filtered
        else filtered
      let counts := count_results data statusFiltered filtered
      .results data.length counts.status_filtered_count filtered.length filtered

/-- One row of the `search_history` table as written by
`save_search_history` (the original free-text query, the mode, the
comma-joined field list, and the data-source mode). -/
structure HistoryRow where
  user_id : Nat
  keyword : String
  search_mode : SearchMode
  fields_to_search : String
  data_search_mode : String

/-- `save_search_history` (`app.py` lines 541-551): append one row for
the invoking user. -/
def save_search_history (uid : Nat) (originalKeyword : String) (p : SearchParams)
    (history : List HistoryRow) : List HistoryRow :=
  history ++ [⟨uid, originalKeyword, p.search_mode,
    String.intercalate "," p.fields_to_search, p.data_search_mode⟩]

/-- The search branch of `main` (`app.py` lines 917-954): run
`display_search_results`, then — unconditionally with respect to its
outcome — append a search-history row whenever a user is logged in. -/
def mainSearchInvocation (user : Option Nat) (history : List HistoryRow)
    (data : List Record) (source : String) (p : SearchParams)
    (catalogOf : String → Catalog) : SearchResult × List HistoryRow :=
  let res := display_search_results data source p catalogOf
  match user with
  | some uid => (res, save_search_history uid p.keyword p history)
  | none => (res, history)

/-- `2^32`, the word modulus of SHA-256. -/
def M32 : Nat := 4294967296

/-- Right rotation of a 32-bit word, in arithmetic form: the low `n`
bits move to the top (equal to the usual shift-or form for `x < 2^32`). -/
def rotr (n x : Nat) : Nat :=
  (x % 2 ^ n) * 2 ^ (32 - n) + x / 2 ^ n

/-- UTF-8 encoding of one character (Python `str.encode()`). -/
def charUtf8 (c : Char) : List Nat :=
  let n := c.toNat
  if n < 128 then [n]
  else if n < 2048 then [192 ||| (n >>> 6), 128 ||| (n &&& 63)]
  else if n < 65536 then
    [224 ||| (n >>> 12), 128 ||| ((n >>> 6) &&& 63), 128 ||| (n &&& 63)]
  else
    [240 ||| (n >>> 18), 128 ||| ((n >>> 12) &&& 63),
     128 ||| ((n >>> 6) &&& 63), 128 ||| (n &&& 63)]

/-- UTF-8 encoding of a string as a byte list. -/
def utf8Encode (s : String) : List Nat :=
  s.data.flatMap charUtf8

/-- Big-endian 8-byte encoding of the bit length. -/
def be64 (n : Nat) : List Nat :=
  [(n >>> 56) &&& 255, (n >>> 48) &&& 255, (n >>> 40) &&& 255, (n >>> 32) &&& 255,
   (n >>> 24) &&& 255, (n >>> 16) &&& 255, (n >>> 8) &&& 255, n &&& 255]

/-- SHA-256 padding: append `0x80`, zero bytes up to 56 mod 64, then the
bit length. -/
def sha256Pad (msg : List Nat) : List Nat :=
  let len := msg.length
  let k := (64 + 55 - (len % 64)) % 64
  msg ++ [128] ++ List.replicate k 0 ++ be64 (8 * len)

/-- Split a byte list into 64-byte blocks (structural recursion on a
fuel bounding the length, so the kernel can evaluate it). -/
def toBlocksAux : Nat → List Nat → List (List Nat)
  | _, [] => []
  | 0, l => [l]
  | fuel + 1, a :: l => (a :: l.take 63) :: toBlocksAux fuel (l.drop 63)

/-- Split a byte list into 64-byte blocks. -/
def toBlocks (l : List Nat) : List (List Nat) :=
  toBlocksAux l.length l

/-- Big-endian 32-bit words of a 64-byte block. -/
def beWords : List Nat → List Nat
  | b0 :: b1 :: b2 :: b3 :: rest =>
    (((b0 * 256 + b1) * 256 + b2) * 256 + b3) :: beWords rest
  | _ => []

/-- The SHA-256 round constants. -/
def shaK : List Nat :=
  [1116352408, 1899447441, 3049323471, 3921009573, 961987163, 1508970993, 2453635748,
   2870763221, 3624381080, 310598401, 607225278, 1426881987, 1925078388, 2162078206,
   2614888103, 3248222580, 3835390401, 4022224774, 264347078, 604807628, 770255983,
   1249150122, 1555081692, 1996064986, 2554220882, 2821834349, 2952996808, 3210313671,
   3336571891, 3584528711, 113926993, 338241895, 666307205, 773529912, 1294757372,
   1396182291, 1695183700, 1986661051, 2177026350, 2456956037, 2730485921, 2820302411,
   3259730800, 3345764771, 3516065817, 3600352804, 4094571909, 275423344, 430227734,
   506948616, 659060556, 883997877, 958139571, 1322822218, 1537002063, 1747873779,
   1955562222, 2024104815, 2227730452, 2361852424, 2428436474, 2756734187, 3204031479,
   3329325298]

/-- Extend the 16 message words to the 64-entry schedule. -/
def extendSchedule (w : List Nat) : List Nat :=
  (List.range 48).foldl (fun ws _ =>
    let n := ws.length
    let w15 := ws.getD (n - 15) 0
    let w2 := ws.getD (n - 2) 0
    let w16 := ws.getD (n - 16) 0
    let w7 := ws.getD (n - 7) 0
    let s0 := (rotr 7 w15) ^^^ (rotr 18 w15) ^^^ (w15 >>> 3)
    let s1 := (rotr 17 w2) ^^^ (rotr 19 w2) ^^^ (w2 >>> 10)
    ws ++ [(w16 + s0 + w7 + s1) % M32]) w

/-- The eight 32-bit working registers. -/
structure Hash8 where
  a : Nat
  b : Nat
  c : Nat
  d : Nat
  e : Nat
  f : Nat
  g : Nat
  h : Nat
deriving DecidableEq

/-- The SHA-256 initial hash value. -/
def shaH0 : Hash8 :=
  ⟨1779033703, 3144134277, 1013904242, 2773480762, 1359893119, 2600822924, 528734635,
   1541459225⟩

/-- One compression round. -/
def compressRound (s : Hash8) (wk : Nat × Nat) : Hash8 :=
  let bigS1 := (rotr 6 s.e) ^^^ (rotr 11 s.e) ^^^ (rotr 25 s.e)
  let ch := (s.e &&& s.f) ^^^ ((s.e ^^^ (M32 - 1)) &&& s.g)
  let t1 := (s.h + bigS1 + ch + wk.2 + wk.1) % M32
  let bigS0 := (rotr 2 s.a) ^^^ (rotr 13 s.a) ^^^ (rotr 22 s.a)
  let maj := (s.a &&& s.b) ^^^ (s.a &&& s.c) ^^^ (s.b &&& s.c)
  let t2 := (bigS0 + maj) % M32
  ⟨(t1 + t2) % M32, s.a, s.b, s.c, (s.d + t1) % M32, s.e, s.f, s.g⟩

/-- Compress one 64-byte block into the running hash. -/
def compressBlock (st : Hash8) (block : List Nat) : Hash8 :=
  let ws := extendSchedule (beWords block)
  let r := (ws.zip shaK).foldl compressRound st
  ⟨(st.a + r.a) % M32, (st.b + r.b) % M32, (st.c + r.c) % M32, (st.d + r.d) % M32,
   (st.e + r.e) % M32, (st.f + r.f) % M32, (st.g + r.g) % M32, (st.h + r.h) % M32⟩

/-- The lower-case hexadecimal digit for a nibble. -/
def hexDigitChar (n : Nat) : Char :=
  if n < 10 then Char.ofNat (48 + n) else Char.ofNat (87 + n)

/-- Lower-case 8-digit hex rendering of a 32-bit word. -/
def hex8 (n : Nat) : List Char :=
  (List.range 8).map (fun i => hexDigitChar ((n >>> (28 - 4 * i)) &&& 15))

/-- SHA-256 of a byte list, as a lower-case hex string
(`hashlib.sha256(...).hexdigest()`). -/
def sha256Hex (msg : List Nat) : String :=
  let r := (toBlocks (sha256Pad msg)).foldl compressBlock shaH0
  String.mk ([r.a, r.b, r.c, r.d, r.e, r.f, r.g, r.h].flatMap hex8)

/-- `hash_password` (`app.py` line 465):
`sha256(password.encode()).hexdigest()`. -/
def hash_password (password : String) : String :=
  sha256Hex (utf8Encode password)

/-- One row of the `users` table. -/
structure UserRow where
  id : Nat
  username : String
  password : String
  is_admin : Bool
deriving DecidableEq

/-- `register_user` (`app.py` lines 480-490): the `INSERT` violates the
`UNIQUE` constraint exactly when the username already exists, in which
case `False` is returned and the store is unchanged; otherwise a row
with the hashed password and `is_admin = 0` is appended (the
autoincrement id modelled as one past the current row count). -/
def register_user (store : List UserRow) (username password : String) :
    Bool × List UserRow :=
  if store.any (fun r => r.username == username) then (false, store)
  else (true, store ++ [⟨store.length + 1, username, hash_password password, false⟩])

/-- `authenticate_user` (`app.py` lines 469-478): the first row matching
`username = ? AND password = ?`, projected to `(id, username, is_admin)`. -/
def authenticate_user (store : List UserRow) (username password : String) :
    Option (Nat × String × Bool) :=
  match store.find? (fun r => r.username == username && r.password == hash_password password) with
  | some r => some (r.id, r.username, r.is_admin)
  | none => none

/-- The observable outcome of the outbound HTTP POST in
`call_baidu_qf_generate`: a raised transport/timeout exception, or a
response with a status code and a parsed JSON body (`none` when
`resp.json()` raises on an unparseable payload). -/
inductive HttpOutcome where
  | transportError : HttpOutcome
  | resp (status : Nat) (body : Option JVal) : HttpOutcome

/-- Result of one step of Python's defensive extraction: a returned
string, an uncaught-in-place exception (absorbed by the enclosing
handler), or falling through to the next candidate key. -/
inductive ExtractStep where
  | ret (s : String) : ExtractStep
  | exc : ExtractStep
  | fallthrough : ExtractStep

/-- `candidate[sub].strip()`: strips a string, raises (`exc`) on any
other value. -/
def stripOrRaise : JVal → ExtractStep
  | .str s => .ret (pyStrip s)
  | _ => .exc

/-- The inner loop over `("content", "text", "output")` for a dict
candidate (`app.py` lines 718-721), then the string-candidate check. -/
def extractCandidate : JVal → ExtractStep
  | .obj cf =>
    match lookupKey "content" cf with
    | some v => stripOrRaise v
    | none =>
      match lookupKey "text" cf with
      | some v => stripOrRaise v
      | none =>
        match lookupKey "output" cf with
        | some v => stripOrRaise v
        | none => .fallthrough
  | .str s => .ret (pyStrip s)
  | _ => .fallthrough

/-- One iteration of the outer loop over
`("result", "output", "text", "choices", "data")` for a dict payload
(`app.py` lines 713-725). -/
def tryKey (jr : List (String × JVal)) (k : String) : ExtractStep :=
  match lookupKey k jr with
  | none => .fallthrough
  | some (.list (c :: _)) => extractCandidate c
  | some (.list []) => .fallthrough
  | some (.str s) => .ret (pyStrip s)
  | some _ => .fallthrough

/-- Run the outer loop, falling back to `str(jr)` when every candidate
key falls through. -/
def extractKeys (jr : List (String × JVal)) : List String → Option String
  | [] => some (pyStr (JVal.obj jr))
  | k :: ks =>
    match tryKey jr k with
    | .ret s => some s
    | .exc => none
    | .fallthrough => extractKeys jr ks

/-- `call_baidu_qf_generate` (`app.py` lines 685-730) as a function of
the credential and the HTTP outcome: `None` without a key, on a raised
transport error, on a non-200 status, or on an unparseable body
(`resp.json()` raising inside the `try`); otherwise the defensive
multi-key extraction over a dict payload.  A non-dict payload makes the
membership tests `k in jr` either fall through to `str(jr)` (list/str
without the key, `str(s) = s` for a string) or raise (`jr[k]` on a
list/str, `in` on a scalar), the latter absorbed into `None`. -/
def call_baidu_qf_generate (key : String) (outcome : HttpOutcome) : Option String :=
  if key = "" then none
  else
    match outcome with
    | .transportError => none
    | .resp status body =>
      if status ≠ 200 then none
      else
        match body with
        | none => none
        | some (.obj fs) => extractKeys fs ["result", "output", "text", "choices", "data"]
        | some (.list xs) =>
          if ["result", "output", "text", "choices", "data"].any
              (fun k => memJ (JVal.str k) xs)
          then none else some (pyStr (JVal.list xs))
        | some (.str s) =>
          if ["result", "output", "text", "choices", "data"].any
              (fun k => containsSub s.data k.data)
          then none else some s
        | some _ => none

/-- The local fallback tokenizer of `generate_keywords_via_model`
(`app.py` lines 752-753):
`", ".join(t.strip().lower() for t in natural_query.replace(',', ' ').split() if t.strip())`. -/
def localFallbackKeywords (natural_query : String) : String :=
  String.intercalate ", "
    ((pySplit (replaceCommas natural_query)).filterMap
      (fun t => if pyStrip t = "" then none else some (pyToLower (pyStrip t))))

/-- `generate_keywords_via_model` (`app.py` lines 733-753): empty or
all-whitespace queries yield `""`; with a non-empty key the generation
call is attempted and a truthy result is stripped and returned; a
falsy result (`None` or `""`) and an absent key both fall back to the
local tokenizer. -/
def generate_keywords_via_model (natural_query : String) (key : String)
    (outcome : HttpOutcome) : String :=
  if natural_query = "" ∨ pyStrip natural_query = "" then ""
  else if key ≠ "" then
    match call_baidu_qf_generate key outcome with
    | some r => if r ≠ "" then pyStrip r else localFallbackKeywords natural_query
    | none => localFallbackKeywords natural_query
  else localFallbackKeywords natural_query

/-- The failure modes of the claim: transport failure, non-200
response, or unparseable payload. -/
def isFailureOutcome : HttpOutcome → Bool
  | .transportError => true
  | .resp status body => status != 200 || body.isNone

theorem lookupKey_removeKey_self (k : String) (fs : List (String × JVal)) :
    lookupKey k (removeKey k fs) = none := by
  induction fs with
  | nil => rfl
  | cons kv fs ih =>
    obtain ⟨a, v⟩ := kv
    by_cases h : a = k
    · simpa [removeKey, List.filter_cons, h] using ih
    · simpa [removeKey, List.filter_cons, h, lookupKey] using ih

theorem lookupKey_removeKey_ne (a b : String) (hab : a ≠ b) (fs : List (String × JVal)) :
    lookupKey a (removeKey b fs) = lookupKey a fs := by
  induction fs with
  | nil => rfl
  | cons kv fs ih =>
    obtain ⟨k, v⟩ := kv
    by_cases hb : k = b
    · subst hb
      have hka : ¬ (k = a) := fun h => hab h.symm
      simpa [removeKey, List.filter_cons, lookupKey, hka] using ih
    · by_cases ha : k = a
      · subst ha
        simp [removeKey, List.filter_cons, hb, lookupKey]
      · simpa [removeKey, List.filter_cons, hb, lookupKey, ha] using ih

theorem lookupKey_setKey_found (k : String) (w : JVal) (fs : List (String × JVal))
    (h : lookupKey k fs ≠ none) : lookupKey k (setKey k w fs) = some w := by
  induction fs with
  | nil => simp [lookupKey] at h
  | cons kv fs ih =>
    obtain ⟨a, v⟩ := kv
    by_cases hk : a = k
    · subst hk
      simp only [setKey, List.map_cons]
      simp [lookupKey]
    · simp only [setKey, List.map_cons, if_neg hk] at *
      simp only [lookupKey, if_neg hk] at h ⊢
      exact ih h

theorem memJ_append (x : JVal) (xs ys : List JVal) :
    memJ x (xs ++ ys) = (memJ x xs || memJ x ys) := by
  simp [memJ, List.any_append]

theorem memJ_foldl_union (x : JVal) (f : String → List JVal) (cats : List String)
    (acc : List JVal) :
    memJ x (cats.foldl (fun a c => a ++ f c) acc)
      = (memJ x acc || cats.any (fun c => memJ x (f c))) := by
  induction cats generalizing acc with
  | nil => simp
  | cons c cats ih =>
    simp only [List.foldl_cons, List.any_cons, ih, memJ_append, Bool.or_assoc]

theorem memJ_unionIds (x : JVal) (catalog : Catalog) (cats : List String) :
    memJ x (unionIds catalog cats)
      = cats.any (fun c => memJ x ((catalogLookup c catalog).getD [])) := by
  have h := memJ_foldl_union x (fun c => (catalogLookup c catalog).getD []) cats []
  simpa [unionIds, memJ] using h

theorem categoryFilterLoop_eq_filter (sel : List (String × List String))
    (catalogOf : String → Catalog) (papers : List Record) :
    categoryFilterLoop sel catalogOf papers
      = papers.filter (categoryKeepSpec sel catalogOf) := by
  induction papers with
  | nil => rfl
  | cons p ps ih =>
    simp only [categoryFilterLoop, List.filter_cons, ih]
    split
    · next h1 => simp [categoryKeepSpec, h1]
    · next conf h1 =>
      split
      · next h2 => simp [categoryKeepSpec, h1, h2]
      · next kv h2 =>
        by_cases h3 : kv.2 = []
        · simp [categoryKeepSpec, h1, h2, h3]
        · by_cases h4 : (catalogOf conf).isEmpty = true
          · simp [categoryKeepSpec, h1, h2, h3, h4]
          · have hspec : categoryKeepSpec sel catalogOf p
                = kv.2.any (fun c => memJ (rGet p "id")
                    ((catalogLookup c (catalogOf conf)).getD [])) := by
              simp [categoryKeepSpec, h1, h2, h3, h4]
            rw [if_neg h3, if_neg h4, hspec, memJ_unionIds]

theorem categoryFilterLoop_sublist (sel : List (String × List String))
    (catalogOf : String → Catalog) (papers : List Record) :
    (categoryFilterLoop sel catalogOf papers).Sublist papers := by
  rw [categoryFilterLoop_eq_filter]
  exact List.filter_sublist papers

theorem statusFilteredOf_sublist (flag : Bool) (data : List Record) :
    (statusFilteredOf flag data).Sublist data := by
  cases flag with
  | true => simp [statusFilteredOf]
  | false =>
    simp only [statusFilteredOf, statusExclude, Bool.false_eq_true, if_false]
    exact List.filter_sublist data

theorem pyStrip_empty_all_space (s : String) (h : pyStrip s = "") :
    ∀ c ∈ s.data, pyIsSpace c = true := by
  have hl : stripChars s.data = [] := by
    simpa using congrArg String.data h
  have hrev : (s.data.dropWhile pyIsSpace).reverse.dropWhile pyIsSpace = [] := by
    simpa [stripChars, List.reverse_eq_nil_iff] using hl
  have hdrop : ∀ c ∈ s.data.dropWhile pyIsSpace, pyIsSpace c = true := by
    intro c hc
    exact (List.dropWhile_eq_nil_iff.mp hrev) c (List.mem_reverse.mpr hc)
  intro c hc
  rw [← List.takeWhile_append_dropWhile pyIsSpace s.data] at hc
  rcases List.mem_append.mp hc with h1 | h2
  · exact List.mem_takeWhile_imp h1
  · exact hdrop c h2

theorem splitChars_all_space (l : List Char) (h : ∀ c ∈ l, pyIsSpace c = true) :
    ∀ t ∈ splitChars pyIsSpace l, t = [] := by
  induction l with
  | nil =>
    intro t ht
    simpa [splitChars] using ht
  | cons c cs ih =>
    intro t ht
    have hc : pyIsSpace c = true := h c (List.mem_cons_self c cs)
    have hcs : ∀ c ∈ cs, pyIsSpace c = true := fun x hx => h x (List.mem_cons_of_mem c hx)
    simp only [splitChars, hc, if_true] at ht
    rcases List.mem_cons.mp ht with h1 | h2
    · exact h1
    · exact ih hcs t h2

theorem localFallbackKeywords_of_strip_empty (nq : String) (h : pyStrip nq = "") :
    localFallbackKeywords nq = "" := by
  have hall : ∀ c ∈ (replaceCommas nq).data, pyIsSpace c = true := by
    intro c hc
    simp only [replaceCommas, List.mem_map] at hc
    obtain ⟨a, ha, hfa⟩ := hc
    have hpa : pyIsSpace a = true := pyStrip_empty_all_space nq h a ha
    by_cases hcomma : a = ','
    · rw [← hfa, if_pos hcomma]; rfl
    · rw [← hfa, if_neg hcomma]; exact hpa
  have hsplit : pySplit (replaceCommas nq) = [] := by
    rw [pySplit, List.filter_eq_nil_iff]
    intro t ht
    simp only [List.mem_map] at ht
    obtain ⟨piece, hpiece, hmk⟩ := ht
    have : piece = [] := splitChars_all_space _ hall piece hpiece
    simp [← hmk, this]
  rw [localFallbackKeywords, hsplit]
  rfl

theorem call_baidu_none_on_failure (key : String) (outcome : HttpOutcome)
    (h : isFailureOutcome outcome = true) :
    call_baidu_qf_generate key outcome = none := by
  by_cases hk : key = ""
  · simp [call_baidu_qf_generate, hk]
  · cases outcome with
    | transportError => simp [call_baidu_qf_generate, hk]
    | resp status body =>
      simp only [isFailureOutcome, Bool.or_eq_true, bne_iff_ne, ne_eq,
        Option.isNone_iff_eq_none] at h
      rcases h with h1 | h2
      · simp [call_baidu_qf_generate, hk, h1]
      · subst h2
        by_cases h1 : status = 200 <;> simp [call_baidu_qf_generate, hk, h1]

theorem find?_none_of_username_ne (s : List UserRow) (u : String) (q : UserRow → Bool)
    (h : ∀ r ∈ s, r.username ≠ u) :
    s.find? (fun r => r.username == u && q r) = none := by
  induction s with
  | nil => rfl
  | cons r s ih =>
    have hr : (r.username == u) = false := by
      simpa using h r (List.mem_cons_self r s)
    have hs : ∀ x ∈ s, x.username ≠ u := fun x hx => h x (List.mem_cons_of_mem r hx)
    simp [List.find?_cons, hr, ih hs]

theorem any_false_of_username_ne (s : List UserRow) (u : String)
    (h : ∀ r ∈ s, r.username ≠ u) :
    s.any (fun r => r.username == u) = false := by
  induction s with
  | nil => rfl
  | cons r s ih =>
    have hr : (r.username == u) = false := by
      simpa using h r (List.mem_cons_self r s)
    have hs : ∀ x ∈ s, x.username ≠ u := fun x hx => h x (List.mem_cons_of_mem r hx)
    simp [hr, ih hs]

/-- C6: status-exclusion filtering is idempotent — for every record
collection and fixed include-rejected flag, applying the status filter
to an already-filtered collection yields the same collection. -/
theorem status_filter_idempotent (flag : Bool) (data : List Record) :
    statusFilteredOf flag (statusFilteredOf flag data) = statusFilteredOf flag data := by
  cases flag with
  | true => rfl
  | false =>
    simp only [statusFilteredOf, Bool.false_eq_true, if_false, statusExclude,
      List.filter_filter]
    exact List.filter_congr (fun x _ => Bool.and_self _)

/-- C9: the data loader returns a top-level JSON list as-is; flattens a
mapping through its `categories` sub-mapping, or through a `data` or
`records` key holding a list; and yields the empty list for a missing
file, a parse failure, a non-dict `categories` value, or any other
top-level shape. -/
theorem load_json_data_shape_characterization :
    (load_json_data none = []) ∧
    (∀ xs, load_json_data (some (JVal.list xs)) = xs) ∧
    (∀ kvs cats, lookupKey "categories" kvs = some (JVal.obj cats) →
      load_json_data (some (JVal.obj kvs))
        = cats.map (fun kv => JVal.obj [("category", JVal.str kv.1), ("papers", kv.2)])) ∧
    (∀ kvs v, lookupKey "categories" kvs = some v → (∀ cats, v ≠ JVal.obj cats) →
      load_json_data (some (JVal.obj kvs)) = []) ∧
    (∀ kvs xs, lookupKey "categories" kvs = none →
      lookupKey "data" kvs = some (JVal.list xs) →
      load_json_data (some (JVal.obj kvs)) = xs) ∧
    (∀ kvs xs, lookupKey "categories" kvs = none →
      (∀ ys, lookupKey "data" kvs ≠ some (JVal.list ys)) →
      lookupKey "records" kvs = some (JVal.list xs) →
      load_json_data (some (JVal.obj kvs)) = xs) ∧
    (∀ kvs, lookupKey "categories" kvs = none →
      (∀ ys, lookupKey "data" kvs ≠ some (JVal.list ys)) →
      (∀ ys, lookupKey "records" kvs ≠ some (JVal.list ys)) →
      load_json_data (some (JVal.obj kvs)) = []) ∧
    (load_json_data (some JVal.null) = []) ∧
    (∀ b, load_json_data (some (JVal.bool b)) = []) ∧
    (∀ n, load_json_data (some (JVal.num n)) = []) ∧
    (∀ s, load_json_data (some (JVal.str s)) = []) := by
  refine ⟨rfl, fun xs => rfl, ?_, ?_, ?_, ?_, ?_, rfl, fun b => rfl, fun n => rfl,
    fun s => rfl⟩
  · intro kvs cats h
    simp [load_json_data, h]
  · intro kvs v h hno
    cases v
    case obj fs => exact absurd rfl (hno fs)
    all_goals simp [load_json_data, h]
  · intro kvs xs h1 h2
    simp [load_json_data, h1, h2]
  · intro kvs xs h1 h2 h3
    rcases hd : lookupKey "data" kvs with _ | v
    · simp [load_json_data, h1, hd, h3]
    · cases v
      case list ys => exact absurd hd (h2 ys)
      all_goals simp [load_json_data, h1, hd, h3]
  · intro kvs h1 h2 h3
    rcases hd : lookupKey "data" kvs with _ | v
    · rcases hr : lookupKey "records" kvs with _ | w
      · simp [load_json_data, h1, hd, hr]
      · cases w
        case list ys => exact absurd hr (h3 ys)
        all_goals simp [load_json_data, h1, hd, hr]
    · cases v
      case list ys => exact absurd hd (h2 ys)
      all_goals
        rcases hr : lookupKey "records" kvs with _ | w
        · simp [load_json_data, h1, hd, hr]
        · cases w
          case list ys => exact absurd hr (h3 ys)
          all_goals simp [load_json_data, h1, hd, hr]

/-- Witness for C9: the `categories` clause at a concrete one-category
file. -/
theorem load_json_data_shape_witness :
    load_json_data
      (some (JVal.obj [("categories", JVal.obj [("nlp", JVal.list [JVal.str "p1"])])]))
      = [JVal.obj [("category", JVal.str "nlp"),
          ("papers", JVal.list [JVal.str "p1"])]] :=
  load_json_data_shape_characterization.2.2.1
    [("categories", JVal.obj [("nlp", JVal.list [JVal.str "p1"])])]
    [("nlp", JVal.list [JVal.str "p1"])] rfl

/-- C10: the catalog returned by `load_conference_key_fields` never
contains the key `categories`, and any `award` entry holds a list all
of whose elements are strings. -/
theorem key_fields_catalog_invariant (input : Option (List (String × JVal))) :
    lookupKey "categories" (load_conference_key_fields input) = none ∧
    (∀ v, lookupKey "award" (load_conference_key_fields input) = some v →
      ∃ l, v = JVal.list l ∧ ∀ x ∈ l, ∃ s, x = JVal.str s) := by
  cases input with
  | none => exact ⟨rfl, by simp [load_conference_key_fields, lookupKey]⟩
  | some kf =>
    rcases ha : lookupKey "award" kf with _ | v
    · constructor
      · simp only [load_conference_key_fields, ha]
        exact lookupKey_removeKey_self _ _
      · intro v hv
        simp only [load_conference_key_fields, ha] at hv
        rw [lookupKey_removeKey_ne "award" "categories" (by decide) kf, ha] at hv
        exact absurd hv (by simp)
    · rcases hi : pyIter v with _ | elems
      · constructor
        · simp [load_conference_key_fields, ha, hi, lookupKey]
        · intro w hw
          simp [load_conference_key_fields, ha, hi, lookupKey] at hw
      · constructor
        · simp only [load_conference_key_fields, ha, hi]
          exact lookupKey_removeKey_self _ _
        · intro w hw
          simp only [load_conference_key_fields, ha, hi] at hw
          rw [lookupKey_removeKey_ne "award" "categories" (by decide) _,
            lookupKey_setKey_found "award" _ kf (by simp [ha])] at hw
          refine ⟨elems.map (fun e => JVal.str (pyStr e)), (Option.some_inj.mp hw).symm, ?_⟩
          intro x hx
          obtain ⟨e, _, hee⟩ := List.mem_map.mp hx
          exact ⟨pyStr e, hee.symm⟩

/-- Witness for C10: a concrete catalog with a boolean in the raw
`award` list and a `categories` entry. -/
theorem key_fields_catalog_witness :
    (lookupKey "categories"
        (load_conference_key_fields
          (some [("award", JVal.list [JVal.bool true, JVal.str "Best Paper"]),
                 ("categories", JVal.obj [])])) = none) ∧
    (∃ l, JVal.list [JVal.str "True", JVal.str "Best Paper"] = JVal.list l ∧
      ∀ x ∈ l, ∃ s, x = JVal.str s) :=
  ⟨(key_fields_catalog_invariant _).1, (key_fields_catalog_invariant
      (some [("award", JVal.list [JVal.bool true, JVal.str "Best Paper"]),
             ("categories", JVal.obj [])])).2 _ rfl⟩

/-- C4: in key-field faceting, a boolean `award` value is compared by
stringifying and lower-casing both the value and every allow-list
entry; in particular a record with `award = True` is retained by an
allow-list containing the string `"true"`. -/
theorem award_bool_normalization (confMap : ConfValuesMap) (r : Record) (conf : String)
    (vals : List JVal)
    (hsrc : rGet r "source" = JVal.str conf)
    (hfind : confLookup (JVal.str conf) confMap = some vals)
    (hne : vals.isEmpty = false) :
    (∀ b, rGet r "award" = JVal.bool b →
      (keyFieldKeep [("award", confMap)] r = true ↔
        pyToLower (pyStr (JVal.bool b)) ∈ vals.map (fun v => pyToLower (pyStr v)))) ∧
    (rGet r "award" = JVal.bool true → JVal.str "true" ∈ vals →
      keyFieldKeep [("award", confMap)] r = true) := by
  have hcheck : ∀ b, rGet r "award" = JVal.bool b →
      (keyFieldKeep [("award", confMap)] r = true ↔
        pyToLower (pyStr (JVal.bool b)) ∈ vals.map (fun v => pyToLower (pyStr v))) := by
    intro b hb
    simp [keyFieldKeep, keyFieldCheck, hsrc, hfind, hne, hb, JVal.isBool]
  refine ⟨hcheck, fun hb hmem => (hcheck true hb).mpr ?_⟩
  exact List.mem_map.mpr ⟨JVal.str "true", hmem, by decide⟩

/-- Witness for C4: a concrete ACL-style record with boolean award,
allow-list `["true"]`. -/
theorem award_bool_normalization_witness :
    keyFieldKeep [("award", [("acl", [JVal.str "true"])])]
      [("source", JVal.str "acl"), ("award", JVal.bool true)] = true :=
  (award_bool_normalization [("acl", [JVal.str "true"])]
      [("source", JVal.str "acl"), ("award", JVal.bool true)] "acl" [JVal.str "true"]
      rfl rfl rfl).2 rfl (List.mem_singleton.mpr rfl)

/-- C5: the category faceting pass retains a record from a conference
with a non-empty selection and a non-empty catalog exactly when its
`id` lies in the union of the selected categories' id sets, and passes
every other record through — stated as equality with a filter by the
specification's retention predicate. -/
theorem category_faceting_characterization (sel : List (String × List String))
    (catalogOf : String → Catalog) (papers : List Record) :
    categoryFilter sel catalogOf papers = papers.filter (categoryKeepSpec sel catalogOf) :=
  categoryFilterLoop_eq_filter sel catalogOf papers

/-- C2 counterexample: with an empty token list (empty raw query), AND
mode matches every record vacuously while OR mode matches none, so the
AND-mode matches are not a subset of the OR-mode matches. -/
theorem and_or_subset_fails_on_empty_tokens :
    ¬ ((filter_data [[("title", JVal.str "x")]] "" ["title"] SearchMode.andMode true).2
        ⊆ (filter_data [[("title", JVal.str "x")]] "" ["title"] SearchMode.orMode true).2) := by
  intro h
  have hmem : [("title", JVal.str "x")] ∈
      (filter_data [[("title", JVal.str "x")]] "" ["title"] SearchMode.andMode true).2 := by
    show [("title", JVal.str "x")] ∈ [[("title", JVal.str "x")]]
    exact List.mem_singleton.mpr rfl
  have h2 := h hmem
  rw [show (filter_data [[("title", JVal.str "x")]] "" ["title"] SearchMode.orMode true).2
      = [] from rfl] at h2
  exact absurd h2 (List.not_mem_nil _)

/-- C2 (amended to non-empty token lists): whenever the tokenized query
is non-empty, the AND-mode keyword matches are a subset of the OR-mode
matches over the same collection, fields and flag. -/
theorem and_subset_or_nonempty_tokens (data : List Record) (keyword : String)
    (fields : List String) (ir : Bool) (h : pyTokens keyword ≠ []) :
    (filter_data data keyword fields SearchMode.andMode ir).2
      ⊆ (filter_data data keyword fields SearchMode.orMode ir).2 := by
  intro x hx
  simp only [filter_data, List.mem_filter] at hx ⊢
  refine ⟨hx.1, ?_⟩
  have hand := hx.2
  simp only [matchRecord] at hand ⊢
  obtain ⟨t0, ht0⟩ := List.exists_mem_of_ne_nil (pyTokens keyword) h
  rw [List.any_eq_true]
  exact ⟨t0, ht0, (List.all_eq_true.mp hand) t0 ht0⟩

/-- Witness for the amended C2 at a concrete corpus and query. -/
theorem and_subset_or_witness :
    (filter_data [[("title", JVal.str "retrieval agent")]] "retrieval agent" ["title"]
        SearchMode.andMode true).2
      ⊆ (filter_data [[("title", JVal.str "retrieval agent")]] "retrieval agent" ["title"]
        SearchMode.orMode true).2 :=
  and_subset_or_nonempty_tokens _ "retrieval agent" _ true (by decide)

theorem filter_data_fst (data : List Record) (keyword : String) (fields : List String)
    (mode : SearchMode) (ir : Bool) :
    (filter_data data keyword fields mode ir).1 = statusFilteredOf ir data := rfl

theorem filter_data_snd_sublist (data : List Record) (keyword : String)
    (fields : List String) (mode : SearchMode) (ir : Bool) :
    (filter_data data keyword fields mode ir).2.Sublist (statusFilteredOf ir data) :=
  List.filter_sublist _

theorem ite_keyField_sublist (b : Bool) (filters : List (String × ConfValuesMap))
    (x : List Record) :
    (if b then keyFieldFilter filters x else x).Sublist x := by
  cases b with
  | true => exact List.filter_sublist _
  | false => exact List.Sublist.refl _

theorem ite_category_sublist (b : Bool) (sel : List (String × List String))
    (catalogOf : String → Catalog) (x : List Record) :
    (if b then categoryFilter sel catalogOf x else x).Sublist x := by
  cases b with
  | true => exact categoryFilterLoop_sublist sel catalogOf x
  | false => exact List.Sublist.refl _

/-- C1: whenever a search renders its three counts, the final filtered
collection is a sublist (hence subset) of the status-filtered
collection, which is a sublist of the original collection, and the
displayed counts satisfy `matched ≤ status_filtered ≤ total`. -/
theorem search_counts_monotone (data : List Record) (source : String) (p : SearchParams)
    (catalogOf : String → Catalog) (t s m : Nat) (recs : List Record)
    (h : display_search_results data source p catalogOf = .results t s m recs) :
    recs.Sublist (statusFilteredOf p.include_rejected data) ∧
    (statusFilteredOf p.include_rejected data).Sublist data ∧
    t = data.length ∧ s = (statusFilteredOf p.include_rejected data).length ∧
    m = recs.length ∧ m ≤ s ∧ s ≤ t := by
  have hsfdata : (statusFilteredOf p.include_rejected data).Sublist data :=
    statusFilteredOf_sublist _ _
  simp only [display_search_results, count_results] at h
  split at h
  · simp at h
  split at h
  · simp at h
  split at h
  · simp at h
  split at h
  · simp at h
  injection h with ht hs hm hrecs
  subst ht
  subst hs
  subst hm
  subst hrecs
  have hP2 : (if pyTokens p.keyword ≠ [] then
      filter_data data p.keyword p.fields_to_search p.search_mode p.include_rejected
    else (statusFilteredOf p.include_rejected data,
      statusFilteredOf p.include_rejected data)).2.Sublist
      (statusFilteredOf p.include_rejected data) := by
    split
    · exact filter_data_snd_sublist _ _ _ _ _
    · exact List.Sublist.refl _
  have hP1 : (if pyTokens p.keyword ≠ [] then
      filter_data data p.keyword p.fields_to_search p.search_mode p.include_rejected
    else (statusFilteredOf p.include_rejected data,
      statusFilteredOf p.include_rejected data)).1
      = statusFilteredOf p.include_rejected data := by
    split <;> rfl
  refine ⟨?_, hsfdata, rfl, ?_, rfl, ?_, ?_⟩
  · exact (ite_category_sublist _ _ _ _).trans ((ite_keyField_sublist _ _ _).trans hP2)
  · rw [hP1]
  · rw [hP1]
    exact List.Sublist.length_le
      ((ite_category_sublist _ _ _ _).trans ((ite_keyField_sublist _ _ _).trans hP2))
  · rw [hP1]
    exact List.Sublist.length_le hsfdata

/-- Witness for C1 at a concrete one-record search that renders
counts. -/
theorem search_counts_monotone_witness :
    ([[("title", JVal.str "x")]] : List Record).Sublist
        (statusFilteredOf true [[("title", JVal.str "x")]]) ∧
    (statusFilteredOf true [[("title", JVal.str "x")]]).Sublist [[("title", JVal.str "x")]] ∧
    1 = ([[("title", JVal.str "x")]] : List Record).length ∧
    1 = (statusFilteredOf true [[("title", JVal.str "x")]]).length ∧
    1 = ([[("title", JVal.str "x")]] : List Record).length ∧
    1 ≤ 1 ∧ 1 ≤ 1 :=
  search_counts_monotone [[("title", JVal.str "x")]] "acl"
    ⟨"", SearchMode.orMode, [], true, [], "", []⟩ (fun _ => []) 1 1 1
    [[("title", JVal.str "x")]] rfl

/-- C3 counterexample: a logged-in user submitting a search with a
non-empty query but no selected fields receives the validation warning,
yet a search-history row is still appended — `main` saves history
unconditionally after `display_search_results` returns. -/
theorem config_error_still_logs_history :
    (mainSearchInvocation (some 1) [] [[("title", JVal.str "x")]] "acl"
        ⟨"agent", SearchMode.orMode, [], false, [], conferenceMode, []⟩ (fun _ => [])).1
      = SearchResult.warnNeedFields ∧
    (mainSearchInvocation (some 1) [] [[("title", JVal.str "x")]] "acl"
        ⟨"agent", SearchMode.orMode, [], false, [], conferenceMode, []⟩ (fun _ => [])).2.length
      = 1 :=
  ⟨rfl, rfl⟩

/-- C3 (amended): a contradictory field/keyword configuration is
reported as a validation warning and no record list is produced; no
search state changes for an anonymous invocation, but for a logged-in
user one search-history row is still appended (the history write in
`main` is unconditional). -/
theorem config_error_validation_and_history (user : Option Nat) (history : List HistoryRow)
    (data : List Record) (source : String) (p : SearchParams)
    (catalogOf : String → Catalog)
    (hs : source ≠ "") (hd : data ≠ [])
    (hcfg : (p.fields_to_search = [] ∧ pyTokens p.keyword ≠ []) ∨
            (p.fields_to_search ≠ [] ∧ pyTokens p.keyword = [])) :
    ((mainSearchInvocation user history data source p catalogOf).1
        = SearchResult.warnNeedFields ∨
     (mainSearchInvocation user history data source p catalogOf).1
        = SearchResult.warnNeedKeywords) ∧
    (mainSearchInvocation user history data source p catalogOf).2
      = (match user with
         | some uid => save_search_history uid p.keyword p history
         | none => history) ∧
    (user = none → (mainSearchInvocation user history data source p catalogOf).2 = history) := by
  have hres : display_search_results data source p catalogOf = .warnNeedFields ∨
      display_search_results data source p catalogOf = .warnNeedKeywords := by
    simp only [display_search_results]
    rw [if_neg hs, if_neg (by simpa [List.isEmpty_iff] using hd)]
    rcases hcfg with ⟨h1, h2⟩ | ⟨h1, h2⟩
    · rw [if_pos ⟨h1, h2⟩]
      exact Or.inl rfl
    · rw [if_neg (fun hc => h1 hc.1), if_pos ⟨h1, h2⟩]
      exact Or.inr rfl
  have hfst : (mainSearchInvocation user history data source p catalogOf).1
      = display_search_results data source p catalogOf := by
    cases user <;> rfl
  refine ⟨by rw [hfst]; exact hres, by cases user <;> rfl, ?_⟩
  intro hu
  subst hu
  rfl

/-- Witness for the amended C3: an anonymous invocation with fields but
no keywords. -/
theorem config_error_validation_witness :
    ((mainSearchInvocation none [] [[("title", JVal.str "x")]] "acl"
        ⟨"", SearchMode.orMode, ["title"], false, [], conferenceMode, []⟩ (fun _ => [])).1
        = SearchResult.warnNeedFields ∨
     (mainSearchInvocation none [] [[("title", JVal.str "x")]] "acl"
        ⟨"", SearchMode.orMode, ["title"], false, [], conferenceMode, []⟩ (fun _ => [])).1
        = SearchResult.warnNeedKeywords) ∧
    (mainSearchInvocation none [] [[("title", JVal.str "x")]] "acl"
        ⟨"", SearchMode.orMode, ["title"], false, [], conferenceMode, []⟩ (fun _ => [])).2
      = [] ∧
    ((none : Option Nat) = none →
      (mainSearchInvocation none [] [[("title", JVal.str "x")]] "acl"
        ⟨"", SearchMode.orMode, ["title"], false, [], conferenceMode, []⟩ (fun _ => [])).2
      = []) :=
  config_error_validation_and_history none [] [[("title", JVal.str "x")]] "acl"
    ⟨"", SearchMode.orMode, ["title"], false, [], conferenceMode, []⟩ (fun _ => [])
    (by decide) (by simp) (Or.inr ⟨by simp, by decide⟩)

/-- C7: from a store without user `alice`, registration succeeds and
stores the SHA-256 hash of `pw1`; re-registration under the same name
fails and leaves the store unchanged; authentication then succeeds with
`pw1` and fails with `pw2`. -/
theorem register_authenticate_alice (s : List UserRow)
    (h : ∀ r ∈ s, r.username ≠ "alice") :
    (register_user s "alice" "pw1").1 = true ∧
    register_user (register_user s "alice" "pw1").2 "alice" "pw2"
      = (false, (register_user s "alice" "pw1").2) ∧
    authenticate_user (register_user s "alice" "pw1").2 "alice" "pw1"
      = some (s.length + 1, "alice", false) ∧
    (∃ r ∈ (register_user s "alice" "pw1").2, r.username = "alice" ∧
      r.password = "c592df4a86933b92addc9842402ddf198c638ea9be58916ee6e3734e1e3152f8") ∧
    authenticate_user (register_user s "alice" "pw1").2 "alice" "pw2" = none := by
  have hany : s.any (fun r => r.username == "alice") = false := any_false_of_username_ne s _ h
  have hreg : register_user s "alice" "pw1"
      = (true, s ++ [⟨s.length + 1, "alice", hash_password "pw1", false⟩]) := by
    simp [register_user, hany]
  refine ⟨by rw [hreg], ?_, ?_, ?_, ?_⟩
  · rw [hreg]
    simp [register_user, List.any_append, hany]
  · rw [hreg]
    simp only [authenticate_user]
    rw [List.find?_append, find?_none_of_username_ne s "alice" _ h]
    simp [List.find?_cons]
  · refine ⟨⟨s.length + 1, "alice", hash_password "pw1", false⟩, ?_, rfl, ?_⟩
    · rw [hreg]
      exact List.mem_append_right _ (List.mem_singleton.mpr rfl)
    · exact (by decide :
        hash_password "pw1"
          = "c592df4a86933b92addc9842402ddf198c638ea9be58916ee6e3734e1e3152f8")
  · rw [hreg]
    simp only [authenticate_user]
    rw [List.find?_append, find?_none_of_username_ne s "alice" _ h]
    have hpw : (hash_password "pw1" == hash_password "pw2") = false := by decide
    simp [List.find?_cons, hpw]

/-- Witness for C7 at the empty store. -/
theorem register_authenticate_alice_witness :
    (register_user [] "alice" "pw1").1 = true ∧
    register_user (register_user [] "alice" "pw1").2 "alice" "pw2"
      = (false, (register_user [] "alice" "pw1").2) ∧
    authenticate_user (register_user [] "alice" "pw1").2 "alice" "pw1"
      = some (1, "alice", false) ∧
    (∃ r ∈ (register_user [] "alice" "pw1").2, r.username = "alice" ∧
      r.password = "c592df4a86933b92addc9842402ddf198c638ea9be58916ee6e3734e1e3152f8") ∧
    authenticate_user (register_user [] "alice" "pw1").2 "alice" "pw2" = none :=
  register_authenticate_alice [] (by simp)

/-- C8: on any transport failure, non-200 response, or unparseable
payload, natural-language keyword expansion returns exactly the local
deterministic tokenization of the query, absorbing the failure. -/
theorem nl_expansion_failure_fallback (nq key : String) (outcome : HttpOutcome)
    (h : isFailureOutcome outcome = true) :
    generate_keywords_via_model nq key outcome = localFallbackKeywords nq := by
  by_cases h0 : nq = "" ∨ pyStrip nq = ""
  · rw [generate_keywords_via_model, if_pos h0]
    rcases h0 with h0 | h0
    · rw [localFallbackKeywords_of_strip_empty nq (by rw [h0]; rfl)]
    · rw [localFallbackKeywords_of_strip_empty nq h0]
  · rw [generate_keywords_via_model, if_neg h0]
    by_cases hk : key ≠ ""
    · rw [if_pos hk, call_baidu_none_on_failure key outcome h]
    · rw [if_neg hk]

/-- Witness for C8: a transport failure on a concrete query falls back
to the lower-cased comma-joined tokens. -/
theorem nl_expansion_failure_witness :
    generate_keywords_via_model "Retrieval, Agent" "k" HttpOutcome.transportError
      = localFallbackKeywords "Retrieval, Agent" ∧
    localFallbackKeywords "Retrieval, Agent" = "retrieval, agent" :=
  ⟨nl_expansion_failure_fallback "Retrieval, Agent" "k" HttpOutcome.transportError rfl,
   by decide⟩
